import Mathlib

/-!
Shallow embedding of the quote ingestion / caching / fan-out core of the
CryptoTracker backend, and proofs about the claims of its specification.

Source files embedded here:
* `src/backend/src/services/CacheService.ts` — the TTL key/value cache
  (memory-map branch: the Redis branch is a drop-in with the same contract
  and is unavailable when `REDIS_URL` is unset).
* `src/unnamed/part_008` — `MarketDataService`: tiered polling scheduler,
  rate limiter, Alpaca fetch with synthetic-data fallback.
* `src/unnamed/part_007` — `WebSocketService`: subscription registry.

Conventions: JS `number` timestamps are `Nat` milliseconds; prices are `Rat`
(the claims under test are exact-arithmetic properties, not float-rounding
properties); `Math.random()` draws are an explicit list of rationals
threaded through the state; async methods are state-passing functions.
-/

/-- Pointwise update of a JS `Map` modelled as a function into `Option`.
`upd f k v` is `f` with key `k` bound to `v` (`v = none` models `Map.delete`). -/
def upd {α : Type} (f : String → Option α) (k : String) (v : Option α) :
    String → Option α :=
  fun x => if x = k then v else f x

theorem upd_self {α : Type} (f : String → Option α) (k : String) (v : Option α) :
    upd f k v k = v := by
  simp [upd]

theorem upd_ne {α : Type} (f : String → Option α) (k x : String) (v : Option α)
    (h : x ≠ k) : upd f k v x = f x := by
  simp [upd, h]

theorem upd_upd_self {α : Type} (f : String → Option α) (k : String)
    (v w : Option α) : upd (upd f k v) k w = upd f k w := by
  funext x
  by_cases h : x = k <;> simp [upd, h]

/-- `MarketData` record from `MarketDataService` (part_008 lines 16-28).
The source field `open` is `openPrice` here (`open` is a Lean keyword).  The
optional `marketCap` field is never set by the embedded code paths and is
omitted. `timestamp` is epoch milliseconds. -/
structure MarketData where
  symbol : String
  price : Rat
  change : Rat
  changePercent : Rat
  volume : Rat
  high : Rat
  low : Rat
  openPrice : Rat
  previousClose : Rat
  timestamp : Nat
deriving DecidableEq

/-- A value stored in the cache.  The source stores `JSON.stringify`-serialized
values; serialization round-trips, so we store the structured value: either a
full `MarketData` (keys `market:SYM`) or the synthetic-generator base record
`{ price, timestamp }` (keys `simulated_SYM`). -/
inductive CacheVal where
  | md : MarketData → CacheVal
  | sim : Rat → Nat → CacheVal
deriving DecidableEq

/-- The memory cache of `CacheService`: key → (value, absolute expiry in ms). -/
def MemCache : Type := String → Option (CacheVal × Nat)

/-- `CacheService.set(key, value, ttlSeconds)` (CacheService.ts lines 189-200,
memory branch): stores the value with `expiry = Date.now() + ttlSeconds*1000`. -/
def cacheSet (k : String) (v : CacheVal) (ttlSeconds : Nat) (now : Nat)
    (m : MemCache) : MemCache :=
  upd m k (some (v, now + ttlSeconds * 1000))

/-- `CacheService.get(key)` (CacheService.ts lines 202-216, memory branch):
returns the value if `cached.expiry > Date.now()`, otherwise deletes the
expired slot and returns null.  Returns the result together with the
possibly-updated backing map. -/
def cacheGet (k : String) (now : Nat) (m : MemCache) :
    Option CacheVal × MemCache :=
  match m k with
  | some (v, e) => if now < e then (some v, m) else (none, upd m k none)
  | none => (none, m)

/-- `CacheService.setMarketData(symbol, data)` (CacheService.ts lines 39-48,
memory branch): writes under key `market:SYM` with a fixed 60 s TTL.  Note the
write is unconditional: there is no comparison against the currently cached
timestamp. -/
def setMarketData (symbol : String) (data : MarketData) (now : Nat)
    (m : MemCache) : MemCache :=
  upd m ("market:" ++ symbol) (some (.md data, now + 60000))

/-- `CacheService.getMarketData(symbol)` (CacheService.ts lines 50-79, memory
branch): a `cacheGet` of `market:SYM`; the timestamp string→Date conversion
round-trips and is the identity here. -/
def getMarketData (symbol : String) (now : Nat) (m : MemCache) :
    Option MarketData × MemCache :=
  match cacheGet ("market:" ++ symbol) now m with
  | (some (.md d), m2) => (some d, m2)
  | (some (.sim _ _), m2) => (none, m2)
  | (none, m2) => (none, m2)

/-- Concrete quote used in counterexamples: AAPL with the given price and
timestamp, all other fields zero. -/
def mkQuote (price : Rat) (ts : Nat) : MarketData :=
  ⟨"AAPL", price, 0, 0, 0, 0, 0, 0, 0, ts⟩

/-- The empty backing map. -/
def emptyCache : MemCache := fun _ => none

/-- C1 counterexample: `setMarketData` has no timestamp guard, so applying a
write with timestamp 1000 after a write with timestamp 2000 leaves the *older*
quote in the cache: the cache after both writes reflects T1, not T2, and the
stale write did not leave the cache unchanged. -/
theorem c1_stale_write_overwrites :
    (getMarketData "AAPL" 3000
        (setMarketData "AAPL" (mkQuote 5 1000) 2500
          (setMarketData "AAPL" (mkQuote 7 2000) 2400 emptyCache))).1 =
      some (mkQuote 5 1000) ∧
    (mkQuote 5 1000).timestamp < (mkQuote 7 2000).timestamp ∧
    mkQuote 5 1000 ≠ mkQuote 7 2000 := by
  refine ⟨?_, by decide, by decide⟩
  decide

/-- C1 amended: cache writes for a symbol are last-write-wins with no
timestamp comparison.  After two successive writes, the cache holds exactly
the second-applied write (with its refreshed expiry), whatever the two
quotes' timestamps are, and an unexpired read returns the second-applied
quote. -/
theorem c1_last_write_wins (symbol : String) (d1 d2 : MarketData)
    (t1 t2 tr : Nat) (m : MemCache) (h : tr < t2 + 60000) :
    (setMarketData symbol d2 t2 (setMarketData symbol d1 t1 m))
        ("market:" ++ symbol) = some (.md d2, t2 + 60000) ∧
    (getMarketData symbol tr
        (setMarketData symbol d2 t2 (setMarketData symbol d1 t1 m))).1 =
      some d2 := by
  constructor
  · simp [setMarketData, upd_upd_self, upd_self]
  · simp [getMarketData, cacheGet, setMarketData, upd_upd_self, upd_self, h]

theorem c1_last_write_wins_witness :
    (2999 : Nat) < 2000 + 60000 ∧
    (getMarketData "AAPL" 2999
        (setMarketData "AAPL" (mkQuote 5 1000) 2000
          (setMarketData "AAPL" (mkQuote 7 2000) 1500 emptyCache))).1 =
      some (mkQuote 5 1000) :=
  ⟨by decide,
   (c1_last_write_wins "AAPL" (mkQuote 7 2000) (mkQuote 5 1000) 1500 2000 2999
      emptyCache (by decide)).2⟩

/-- C7: a `get` of an entry whose expiry is at or before the current time
returns exactly what a `get` of a never-set key returns (`none`), and the
expired slot is removed from the backing map by that `get`. -/
theorem c7_expired_get_is_missing_get (k kMissing : String) (t e : Nat)
    (v : CacheVal) (m : MemCache) (hk : m k = some (v, e)) (he : e ≤ t)
    (hm : m kMissing = none) :
    (cacheGet k t m).1 = none ∧
    (cacheGet k t m).1 = (cacheGet kMissing t m).1 ∧
    (cacheGet k t m).2 k = none := by
  have hlt : ¬ t < e := not_lt.mpr he
  refine ⟨?_, ?_, ?_⟩
  · simp [cacheGet, hk, hlt]
  · simp [cacheGet, hk, hlt, hm]
  · simp [cacheGet, hk, hlt, upd_self]

theorem c7_expired_get_is_missing_get_witness :
    (fun x => if x = "k" then some (CacheVal.sim 1 0, 10) else none : MemCache)
        "k" = some (CacheVal.sim 1 0, 10) ∧
    (cacheGet "k" 10
        (fun x => if x = "k" then some (CacheVal.sim 1 0, 10) else none)).1 =
      none :=
  ⟨by decide,
   (c7_expired_get_is_missing_get "k" "missing" 10 10 (CacheVal.sim 1 0)
      (fun x => if x = "k" then some (CacheVal.sim 1 0, 10) else none)
      (by decide) (by decide) (by decide)).1⟩

/-- `MarketDataService.rateLimitWindow` (part_008 line 57): 1 minute in ms. -/
def rateLimitWindow : Nat := 60000

/-- `MarketDataService.maxRequestsPerWindow` (part_008 line 58). -/
def maxRequestsPerWindow : Nat := 300

/-- The rate-limiter fields of `MarketDataService` (part_008 lines 55-56). -/
structure RateState where
  lastRequestTime : Nat
  requestCount : Nat
deriving DecidableEq

/-- The rate-limiting prelude of `fetchAlpacaData` (part_008 lines 406-421):
reset the counter if the window anchored at `lastRequestTime` has passed, then
either skip (`false`, quote not fetched) when the budget is exhausted or count
the request and proceed (`true`).  `now - lastRequestTime` is JS number
subtraction; for the `> 60000` test truncated `Nat` subtraction agrees (a
negative JS difference and a truncated-to-0 difference both fail the test). -/
def rateStep (now : Nat) (st : RateState) : Bool × RateState :=
  let st1 := if now - st.lastRequestTime > rateLimitWindow then
    ⟨now, 0⟩ else st
  if st1.requestCount ≥ maxRequestsPerWindow then (false, st1)
  else (true, ⟨st1.lastRequestTime, st1.requestCount + 1⟩)

/-- Run the rate gate over a sequence of fetch attempts at the given times,
recording for each attempt whether the upstream call was issued. -/
def runRate : List Nat → RateState → List (Nat × Bool) × RateState
  | [], st => ([], st)
  | t :: ts, st =>
    let s := rateStep t st
    let r := runRate ts s.2
    ((t, s.1) :: r.1, r.2)

/-- Number of issued upstream calls whose times fall in the rolling window
`[a, a + rateLimitWindow)`. -/
def issuedInWindow (a : Nat) (trace : List (Nat × Bool)) : Nat :=
  (trace.filter
    (fun p => p.2 && decide (a ≤ p.1) && decide (p.1 < a + rateLimitWindow))).length

set_option maxRecDepth 40000 in
/-- C2 counterexample: the counter window is anchored at `lastRequestTime` and
only moves on reset, so a rolling 60000 ms window that straddles a reset
boundary can see up to double the budget.  Here 300 attempts at t = 59999
exhaust the anchored window, one more attempt at t = 60001 resets the counter
and is issued, and the rolling window starting at 59999 contains 301 > 300
issued upstream calls. -/
theorem c2_rolling_window_exceeded :
    issuedInWindow 59999
        (runRate (List.replicate 300 59999 ++ [60001]) ⟨0, 0⟩).1 = 301 ∧
    maxRequestsPerWindow < 301 := by
  constructor
  · decide
  · decide

/-- Helper for C2: one gated attempt keeps the counter within the budget. -/
theorem rateStep_count_le (now : Nat) (st : RateState)
    (h : st.requestCount ≤ maxRequestsPerWindow) :
    (rateStep now st).2.requestCount ≤ maxRequestsPerWindow := by
  unfold rateStep
  by_cases hw : now - st.lastRequestTime > rateLimitWindow
  · simp only [hw, if_true]
    by_cases hc : (0 : Nat) ≥ maxRequestsPerWindow
    · simp [hc]
    · simp only [hc, if_false]
      omega
  · simp only [hw, if_false]
    by_cases hc : st.requestCount ≥ maxRequestsPerWindow
    · simp [hc, h]
    · simp only [hc, if_false]
      omega

/-- C2 amended: the budget is enforced per anchored counter window, not per
rolling window.  (i) Starting within budget, the counter never exceeds 300
however many attempts are made; (ii) an attempt arriving with the budget
exhausted and the window not yet passed is skipped and changes nothing;
(iii) an issued attempt is one that found the (possibly just reset) counter
strictly below the budget, and it increments that counter by one — so at most
300 calls are issued between consecutive counter resets. -/
theorem c2_budget_anchored_window (ts : List Nat) (st : RateState)
    (h : st.requestCount ≤ maxRequestsPerWindow) :
    (runRate ts st).2.requestCount ≤ maxRequestsPerWindow ∧
    (∀ now s, maxRequestsPerWindow ≤ s.requestCount →
        ¬ (rateLimitWindow < now - s.lastRequestTime) →
        rateStep now s = (false, s)) ∧
    (∀ now s, (rateStep now s).1 = true →
        (rateStep now s).2.requestCount =
          (if rateLimitWindow < now - s.lastRequestTime then 0
            else s.requestCount) + 1 ∧
        (if rateLimitWindow < now - s.lastRequestTime then 0
          else s.requestCount) < maxRequestsPerWindow) := by
  refine ⟨?_, ?_, ?_⟩
  · induction ts generalizing st with
    | nil => exact h
    | cons t ts ih =>
      exact ih _ (rateStep_count_le t st h)
  · intro now s hc hw
    unfold rateStep
    simp only [gt_iff_lt, hw, if_false]
    simp [ge_iff_le, hc]
  · intro now s hs
    unfold rateStep at hs ⊢
    by_cases hw : rateLimitWindow < now - s.lastRequestTime
    · by_cases hc : (0 : Nat) ≥ maxRequestsPerWindow
      · simp [gt_iff_lt, hw, hc] at hs
      · simp only [ge_iff_le, not_le] at hc
        simp [gt_iff_lt, hw, hc, Nat.not_le_of_lt hc]
    · by_cases hc : s.requestCount ≥ maxRequestsPerWindow
      · simp [gt_iff_lt, hw, hc] at hs
      · simp only [ge_iff_le, not_le] at hc
        simp [gt_iff_lt, hw, hc, Nat.not_le_of_lt hc]

theorem c2_budget_anchored_window_witness :
    (⟨0, 0⟩ : RateState).requestCount ≤ maxRequestsPerWindow ∧
    ((runRate [5] ⟨0, 0⟩).2.requestCount ≤ maxRequestsPerWindow ∧
      (∀ now s, maxRequestsPerWindow ≤ s.requestCount →
          ¬ (rateLimitWindow < now - s.lastRequestTime) →
          rateStep now s = (false, s)) ∧
      (∀ now s, (rateStep now s).1 = true →
          (rateStep now s).2.requestCount =
            (if rateLimitWindow < now - s.lastRequestTime then 0
              else s.requestCount) + 1 ∧
          (if rateLimitWindow < now - s.lastRequestTime then 0
            else s.requestCount) < maxRequestsPerWindow)) :=
  ⟨by decide, c2_budget_anchored_window [5] ⟨0, 0⟩ (by decide)⟩

/-- JS `String.prototype.includes`: does `pat` occur contiguously in `s`?
Implemented over the character lists. -/
def listHasSub (pat : List Char) : List Char → Bool
  | [] => decide (pat = [])
  | c :: rest => pat.isPrefixOf (c :: rest) || listHasSub pat rest

/-- `symbol.includes(pat)` from the source. -/
def jsIncludes (s pat : String) : Bool :=
  listHasSub pat.data s.data

/-- The forex pair list of `MarketDataService.isForexSymbol`
(part_008 lines 689-693). -/
def forexPairs : List String :=
  ["EUR/USD", "GBP/USD", "USD/JPY", "USD/CHF",
   "AUD/USD", "USD/CAD", "NZD/USD",
   "EUR/GBP", "EUR/JPY", "GBP/JPY"]

/-- `MarketDataService.isForexSymbol` (part_008 lines 688-695). -/
def isForexSymbol (symbol : String) : Bool :=
  decide (symbol ∈ forexPairs)

/-- Mutable service state threaded through the `MarketDataService` methods:
the cache backing map, the rate-limiter fields, the pending `Math.random()`
draws, and a count of upstream HTTP requests actually issued (for frame
properties; the source has no such counter, it is the observation channel of
the model). -/
structure SysState where
  cache : MemCache
  rate : RateState
  rng : List Rat
  upstreamCalls : Nat

/-- One `Math.random()` draw. -/
def drawR (st : SysState) : Rat × SysState :=
  (st.rng.headD 0, { st with rng := st.rng.tail })

/-- An upstream HTTP request was issued. -/
def recordUpstreamCall (st : SysState) : SysState :=
  { st with upstreamCalls := st.upstreamCalls + 1 }

/-- In the source (part_008 line 699), `generateSimulatedData` reads the cache
with `this.cacheService.get(...)` but does not `await` it, so `cached` is a
pending Promise object, not the resolved value.  The guard
`cached && typeof cached === 'object' && 'price' in cached` (line 703) then
tests the Promise itself: a Promise is truthy and `typeof` object, but has no
own or inherited `price` property, so `'price' in cached` — and with it the
whole guard — is `false` whatever value the cache holds. -/
def promiseGuardHolds (_resolved : Option CacheVal) : Bool := false

/-- The price the guarded branch of `generateSimulatedData` would read
(`cached.price as number`, part_008 line 704).  The branch is unreachable
(see `promiseGuardHolds`); in JS it would in fact read `undefined` off the
Promise. -/
def promisedPrice : Option CacheVal → Rat
  | some (.sim p _) => p
  | _ => 0

/-- The first-use base-price table of `generateSimulatedData`
(part_008 lines 706-727), keyed on the symbol shape, with one
`Math.random()` draw `r`.  Note the order of the branches: a forex pair
containing `/USD` (for example `EUR/USD`) is caught by the `includes('/USD')`
crypto branch before the forex branch is reached, exactly as in the source. -/
def defaultBasePrice (symbol : String) (r : Rat) : Rat :=
  if jsIncludes symbol "BTC" then 65000 + r * 10000
  else if jsIncludes symbol "ETH" then 2500 + r * 1000
  else if jsIncludes symbol "/USD" then r * 100 + 10
  else if isForexSymbol symbol then
    (if symbol = "EUR/USD" then 105 / 100 + r * (1 / 10)
     else if symbol = "GBP/USD" then 125 / 100 + r * (1 / 10)
     else if symbol = "USD/JPY" then 140 + r * 20
     else 1 + r * (1 / 2))
  else if jsIncludes symbol "SPY" then 520 + r * 20
  else if jsIncludes symbol "QQQ" then 380 + r * 20
  else 50 + r * 200

/-- `MarketDataService.generateSimulatedData` (part_008 lines 697-755).
The un-awaited `cacheService.get` still runs its (synchronous) memory-branch
body, so its lazy expiry deletion takes effect; its resolved value is only
ever seen through the always-false Promise guard.  The new price applies a
`(Math.random() - 0.5) * 4` percent step (±2 % bound) to the base, the base
record is cached under `simulated_SYM` (default 300 s TTL), and the quote is
assembled with three further draws for volume/high/low. -/
def generateSimulatedData (symbol : String) (now : Nat) (st : SysState) :
    MarketData × SysState :=
  let g := cacheGet ("simulated_" ++ symbol) now st.cache
  let st0 := { st with cache := g.2 }
  let bp :=
    if promiseGuardHolds g.1 then (promisedPrice g.1, st0)
    else
      let r := drawR st0
      (defaultBasePrice symbol r.1, r.2)
  let basePrice := bp.1
  let d1 := drawR bp.2
  let changePercent := (d1.1 - 1 / 2) * 4
  let change := basePrice * (changePercent / 100)
  let currentPrice := basePrice + change
  let st2 := { d1.2 with
    cache := cacheSet ("simulated_" ++ symbol) (.sim currentPrice now) 300 now
      d1.2.cache }
  let d2 := drawR st2
  let d3 := drawR d2.2
  let d4 := drawR d3.2
  (⟨symbol, currentPrice, change, changePercent,
    ((⌊d2.1 * 1000000⌋ : Int) : Rat) + 100000,
    currentPrice * (1 + d3.1 * (2 / 100)),
    currentPrice * (1 - d4.1 * (2 / 100)),
    basePrice, basePrice, now⟩, d4.2)

/-- Outcome of the upstream Alpaca request for one symbol, as seen by
`fetchAlpacaData`: a successful response yielding quote `d`; a successful
crypto response with no trade data for the symbol; an HTTP 404 / not-found /
forbidden rejection; or any other network/timeout error. -/
inductive Upstream where
  | trade : MarketData → Upstream
  | noTradeData : Upstream
  | httpNotFound : Upstream
  | httpError : Upstream
deriving DecidableEq

/-- `MarketDataService.fetchAlpacaData` (part_008 lines 399-542).  Forex
symbols short-circuit to the synthetic generator before the rate limiter is
consulted.  Otherwise the rate gate runs; when the budget is exhausted the
method returns `null` (line 418) — it does not fall back to synthetic data.
When the gate admits the request, the upstream call is issued; a usable
response yields the live quote, while an empty crypto response, a 404 /
not-found / forbidden rejection, and every other error all fall back to
`generateSimulatedData` (lines 441-444, 531-534, 536-540). -/
def fetchAlpacaData (symbol : String) (outcome : Upstream) (now : Nat)
    (st : SysState) : Option MarketData × SysState :=
  if isForexSymbol symbol then
    let p := generateSimulatedData symbol now st
    (some p.1, p.2)
  else
    let gate := rateStep now st.rate
    let st1 := { st with rate := gate.2 }
    if gate.1 then
      let st2 := recordUpstreamCall st1
      match outcome with
      | .trade d => (some d, st2)
      | .noTradeData =>
        let p := generateSimulatedData symbol now st2
        (some p.1, p.2)
      | .httpNotFound =>
        let p := generateSimulatedData symbol now st2
        (some p.1, p.2)
      | .httpError =>
        let p := generateSimulatedData symbol now st2
        (some p.1, p.2)
    else
      (none, st1)

/-- Helper: `generateSimulatedData` touches only the cache and the random
stream; the rate limiter and the upstream request count are unchanged. -/
theorem generateSimulatedData_frame (symbol : String) (now : Nat)
    (st : SysState) :
    ((generateSimulatedData symbol now st).2).rate = st.rate ∧
    ((generateSimulatedData symbol now st).2).upstreamCalls =
      st.upstreamCalls := by
  constructor <;> rfl

/-- C10: for every symbol in the fixed forex list, a fetch returns the
synthetic generator's quote immediately: no upstream request is issued and
the rate-limit counter state is untouched. -/
theorem c10_forex_bypasses_rate_limit (symbol : String) (outcome : Upstream)
    (now : Nat) (st : SysState) (h : symbol ∈ forexPairs) :
    isForexSymbol symbol = true ∧
    (fetchAlpacaData symbol outcome now st).1 =
      some (generateSimulatedData symbol now st).1 ∧
    ((fetchAlpacaData symbol outcome now st).2).rate = st.rate ∧
    ((fetchAlpacaData symbol outcome now st).2).upstreamCalls =
      st.upstreamCalls := by
  have hf : isForexSymbol symbol = true := by
    simp [isForexSymbol, h]
  refine ⟨hf, ?_, ?_, ?_⟩
  · simp [fetchAlpacaData, hf]
  · simp only [fetchAlpacaData, hf, if_true]
    exact (generateSimulatedData_frame symbol now st).1
  · simp only [fetchAlpacaData, hf, if_true]
    exact (generateSimulatedData_frame symbol now st).2

theorem c10_forex_bypasses_rate_limit_witness :
    "EUR/USD" ∈ forexPairs ∧
    (fetchAlpacaData "EUR/USD" .httpError 0
        ⟨emptyCache, ⟨0, 0⟩, [], 0⟩).1 =
      some (generateSimulatedData "EUR/USD" 0
        ⟨emptyCache, ⟨0, 0⟩, [], 0⟩).1 :=
  ⟨by decide,
   (c10_forex_bypasses_rate_limit "EUR/USD" .httpError 0
      ⟨emptyCache, ⟨0, 0⟩, [], 0⟩ (by decide)).2.1⟩

/-- Rate-limited fetch state for the C3 counterexample: the counter window is
current (opened at t = 100000) and the budget is fully consumed. -/
def rateExhaustedState : SysState :=
  ⟨emptyCache, ⟨100000, 300⟩, [], 0⟩

/-- C3 counterexample: with the rate budget exhausted, a non-forex fetch
returns `null` — not a synthetic quote.  The `RateLimited` error kind
therefore does not resolve to the synthetic-fallback path the other two
error kinds share. -/
theorem c3_rate_limited_returns_null :
    (fetchAlpacaData "AAPL" .httpError 100001 rateExhaustedState).1 = none ∧
    (fetchAlpacaData "AAPL" .httpError 100001 rateExhaustedState).1 ≠
      some (generateSimulatedData "AAPL" 100001 rateExhaustedState).1 := by
  constructor
  · decide
  · decide

/-- C3 amended: a fetch never throws to its caller, but the three failure
kinds split in two: an empty crypto response, a 404/not-found/forbidden
rejection and any other network error all return the synthetic generator's
quote, while rate-limit exhaustion returns `null` (the fetch is skipped, no
synthetic quote is produced). -/
theorem c3_failures_absorbed (symbol : String) (outcome : Upstream)
    (now : Nat) (st : SysState) (hf : isForexSymbol symbol = false)
    (ho : outcome = .noTradeData ∨ outcome = .httpNotFound ∨
      outcome = .httpError) :
    ((rateStep now st.rate).1 = true →
      (fetchAlpacaData symbol outcome now st).1 =
        some (generateSimulatedData symbol now
          (recordUpstreamCall { st with rate := (rateStep now st.rate).2 })).1) ∧
    ((rateStep now st.rate).1 = false →
      (fetchAlpacaData symbol outcome now st).1 = none) := by
  constructor
  · intro hr
    rcases ho with h | h | h <;>
      subst h <;>
      simp [fetchAlpacaData, hf, hr]
  · intro hr
    rcases ho with h | h | h <;>
      subst h <;>
      simp [fetchAlpacaData, hf, hr]

theorem c3_failures_absorbed_witness :
    isForexSymbol "AAPL" = false ∧
    (rateStep 0 (⟨emptyCache, ⟨0, 0⟩, [], 0⟩ : SysState).rate).1 = true ∧
    (fetchAlpacaData "AAPL" .httpError 0 ⟨emptyCache, ⟨0, 0⟩, [], 0⟩).1 =
      some (generateSimulatedData "AAPL" 0
        (recordUpstreamCall { (⟨emptyCache, ⟨0, 0⟩, [], 0⟩ : SysState) with
          rate := (rateStep 0 (⟨emptyCache, ⟨0, 0⟩, [], 0⟩ : SysState).rate).2 })).1 :=
  ⟨by decide, by decide,
   (c3_failures_absorbed "AAPL" .httpError 0 ⟨emptyCache, ⟨0, 0⟩, [], 0⟩
      (by decide) (Or.inr (Or.inr rfl))).1 (by decide)⟩

/-- State for the C4 bug exhibit: the synthetic base price 100 for AAPL is
cached (and far from expiry at the evaluation time 1000), and the pending
random draws are fixed at 1/2, 1/2, 0, 0, 0. -/
def simBugState : SysState :=
  ⟨fun k => if k = "simulated_AAPL" then some (.sim 100 0, 999999) else none,
   ⟨0, 0⟩, [1 / 2, 1 / 2, 0, 0, 0], 0⟩

/-- C4 (code bug exhibit): a prior synthetic base price of 100 for AAPL is
cached and unexpired, yet `generateSimulatedData` prices the next synthetic
quote at 150 — the default stock range draw `50 + 0.5 * 200` — because the
un-awaited Promise never passes the `'price' in cached` guard
(`promiseGuardHolds`).  The new price is not within ±2 % of the cached base
(|150 − 100| > 2), so successive synthetic quotes are independent draws, not
the continuous series the claim (and the source's own comment,
"Get cached data if available to maintain consistency") intends. -/
theorem c4_missing_await_breaks_continuity :
    (cacheGet "simulated_AAPL" 1000 simBugState.cache).1 =
      some (.sim 100 0) ∧
    (generateSimulatedData "AAPL" 1000 simBugState).1.price = 150 ∧
    ¬ (|(generateSimulatedData "AAPL" 1000 simBugState).1.price - 100| ≤
        (2 / 100) * 100) := by
  have hprice : (generateSimulatedData "AAPL" 1000 simBugState).1.price = 150 := by
    simp only [generateSimulatedData, simBugState, cacheGet, cacheSet, drawR,
      promiseGuardHolds, defaultBasePrice, jsIncludes, listHasSub,
      isForexSymbol, forexPairs, upd]
    norm_num
    decide
  refine ⟨by decide, hprice, ?_⟩
  rw [hprice]
  norm_num

/-- `MarketDataService.processMarketData` (part_008 lines 367-381): re-caches
the quote under its symbol and hands it to the registered price-update
callbacks.  The callbacks only emit socket events (part_007 lines 242-259);
they touch neither the cache nor the upstream connection, so the cache write
is the entire state effect. -/
def processMarketData (d : MarketData) (now : Nat) (st : SysState) : SysState :=
  { st with cache := setMarketData d.symbol d now st.cache }

/-- The 2-second broadcast interval body of `startPeriodicDataFetch`
(part_008 lines 161-176): for each symbol, read the cached quote and, when
present, process it (the `setImmediate` deferral still executes
`processMarketData`, modelled as running in iteration order). -/
def broadcastTick : List String → Nat → SysState → SysState
  | [], _, st => st
  | symbol :: rest, now, st =>
    let g := getMarketData symbol now st.cache
    let st1 := match g.1 with
      | some d => processMarketData d now { st with cache := g.2 }
      | none => { st with cache := g.2 }
    broadcastTick rest now st1

/-- Concrete state for the C6 counterexample: one fresh cached AAPL quote
whose entry expires at t = 100000. -/
def bcastState : SysState :=
  ⟨fun k => if k = "market:AAPL" then some (.md (mkQuote 5 1000), 100000)
    else none,
   ⟨0, 0⟩, [], 0⟩

/-- C6 counterexample: a broadcast tick is not cache-read-only.  Broadcasting
the cached AAPL quote routes it through `processMarketData`, which re-writes
the cache entry with a refreshed expiry (`now + 60000` = 65000 instead of
100000), so the cache state after the tick differs from the state before. -/
theorem c6_tick_rewrites_cache :
    (broadcastTick ["AAPL"] 5000 bcastState).cache "market:AAPL" ≠
      bcastState.cache "market:AAPL" := by
  decide

/-- C6 amended: the broadcast tick issues no upstream fetch — the rate-limit
state and the upstream request count are exactly as before the tick — but it
does write the cache: each broadcast quote is re-written with its expiry
refreshed to `now + 60000` (and reading an expired entry lazily deletes it). -/
theorem c6_no_upstream_io (symbols : List String) (now : Nat) (st : SysState) :
    (broadcastTick symbols now st).rate = st.rate ∧
    (broadcastTick symbols now st).upstreamCalls = st.upstreamCalls ∧
    (∀ symbol d e, st.cache ("market:" ++ symbol) = some (.md d, e) →
      now < e → d.symbol = symbol →
      (broadcastTick [symbol] now st).cache ("market:" ++ symbol) =
        some (.md d, now + 60000)) := by
  refine ⟨?_, ?_, ?_⟩
  · induction symbols generalizing st with
    | nil => rfl
    | cons symbol rest ih =>
      rw [broadcastTick]
      cases h : (getMarketData symbol now st.cache).1 <;>
        simp only [h] <;> rw [ih] <;> rfl
  · induction symbols generalizing st with
    | nil => rfl
    | cons symbol rest ih =>
      rw [broadcastTick]
      cases h : (getMarketData symbol now st.cache).1 <;>
        simp only [h] <;> rw [ih] <;> rfl
  · intro symbol d e hk hfresh hsym
    have hg : getMarketData symbol now st.cache = (some d, st.cache) := by
      simp [getMarketData, cacheGet, hk, hfresh]
    simp [broadcastTick, hg, processMarketData, setMarketData, hsym, upd_self]

theorem c6_no_upstream_io_witness :
    ((broadcastTick ["AAPL"] 5000 bcastState).rate = bcastState.rate ∧
      (broadcastTick ["AAPL"] 5000 bcastState).upstreamCalls =
        bcastState.upstreamCalls) ∧
    bcastState.cache ("market:" ++ "AAPL") =
      some (.md (mkQuote 5 1000), 100000) ∧
    (broadcastTick ["AAPL"] 5000 bcastState).cache ("market:" ++ "AAPL") =
      some (.md (mkQuote 5 1000), 5000 + 60000) :=
  ⟨⟨(c6_no_upstream_io ["AAPL"] 5000 bcastState).1,
    (c6_no_upstream_io ["AAPL"] 5000 bcastState).2.1⟩,
   by decide,
   (c6_no_upstream_io ["AAPL"] 5000 bcastState).2.2 "AAPL" (mkQuote 5 1000)
      100000 (by decide) (by decide) (by decide)⟩

/-- JS `Set.prototype.add` on an insertion-ordered set modelled as a
duplicate-free list: append if absent. -/
def addElem (a : String) (l : List String) : List String :=
  if a ∈ l then l else l ++ [a]

/-- `MarketDataService.unsubscribeFromSymbol`'s guarded delete
(part_008 lines 843-861): remove the symbol if present, otherwise no-op. -/
def eraseIfMem (a : String) (l : List String) : List String :=
  if a ∈ l then l.erase a else l

/-- The subscription-registry state of `WebSocketService` (part_007 lines
16-17) together with `MarketDataService.subscribedSymbols` (part_008 line 51),
which the registry drives: `clients` maps a connected socket id to its
`subscribedSymbols` set (the `userId`/`rooms` fields play no part in the
claims); `symbolSubscriptions` maps a symbol to its subscriber-id set;
`mdsSubscribedSymbols` is the set of symbols subscribed on the upstream
Alpaca streams. -/
@[ext]
structure Registry where
  clients : String → Option (List String)
  symbolSubscriptions : String → Option (List String)
  mdsSubscribedSymbols : List String

/-- `WebSocketService.subscribeClientToSymbol` (part_007 lines 189-205):
no-op for an unknown client; otherwise add the symbol to the client's set,
and add the client to the symbol's subscriber set, creating the entry — and
subscribing the symbol on the upstream streams — when the symbol had no
entry.  (`MarketDataService.subscribeToSymbol`, part_008 lines 823-841, is
the guarded add on `mdsSubscribedSymbols`; its WebSocket sends carry no
registry state.) -/
def subscribeClientToSymbol (clientId symbol : String) (st : Registry) :
    Registry :=
  match st.clients clientId with
  | none => st
  | some syms =>
    let clients1 := upd st.clients clientId (some (addElem symbol syms))
    match st.symbolSubscriptions symbol with
    | none =>
      { clients := clients1,
        symbolSubscriptions :=
          upd st.symbolSubscriptions symbol (some (addElem clientId [])),
        mdsSubscribedSymbols := addElem symbol st.mdsSubscribedSymbols }
    | some subs =>
      { clients := clients1,
        symbolSubscriptions :=
          upd st.symbolSubscriptions symbol (some (addElem clientId subs)),
        mdsSubscribedSymbols := st.mdsSubscribedSymbols }

/-- `WebSocketService.unsubscribeClientFromSymbol` (part_007 lines 207-227):
no-op for an unknown client; otherwise remove the symbol from the client's
set and the client from the symbol's subscriber set; when that set becomes
empty, delete the symbol's entry and unsubscribe the symbol from the
upstream streams. -/
def unsubscribeClientFromSymbol (clientId symbol : String) (st : Registry) :
    Registry :=
  match st.clients clientId with
  | none => st
  | some syms =>
    let clients1 := upd st.clients clientId (some (syms.erase symbol))
    match st.symbolSubscriptions symbol with
    | none => { st with clients := clients1 }
    | some subs =>
      let subs1 := subs.erase clientId
      if subs1.isEmpty then
        { clients := clients1,
          symbolSubscriptions := upd st.symbolSubscriptions symbol none,
          mdsSubscribedSymbols := eraseIfMem symbol st.mdsSubscribedSymbols }
      else
        { clients := clients1,
          symbolSubscriptions :=
            upd st.symbolSubscriptions symbol (some subs1),
          mdsSubscribedSymbols := st.mdsSubscribedSymbols }

/-- `WebSocketService.handleClientDisconnection` (part_007 lines 229-240):
unsubscribe the client from each of its symbols, then delete the client.
(JS `Set.forEach` visits every element of the set as it was; each iteration
only deletes the element being visited, so the snapshot fold is exact.) -/
def handleClientDisconnection (clientId : String) (st : Registry) : Registry :=
  match st.clients clientId with
  | none => st
  | some syms =>
    let st1 := syms.foldl
      (fun acc s => unsubscribeClientFromSymbol clientId s acc) st
    { st1 with clients := upd st1.clients clientId none }

/-- C8: unsubscribing a client from a symbol twice in a row equals
unsubscribing once, given that the client's symbol set and the symbol's
subscriber set hold no duplicates (always true for states built by the
registry's own operations).  In particular the second call completes without
error and the subscriber set is not decremented again. -/
theorem c8_unsubscribe_idempotent (st : Registry) (clientId symbol : String)
    (hc : ∀ l, st.clients clientId = some l → l.Nodup)
    (hs : ∀ l, st.symbolSubscriptions symbol = some l → l.Nodup) :
    unsubscribeClientFromSymbol clientId symbol
        (unsubscribeClientFromSymbol clientId symbol st) =
      unsubscribeClientFromSymbol clientId symbol st := by
  cases hcl : st.clients clientId with
  | none =>
    have h1 : unsubscribeClientFromSymbol clientId symbol st = st := by
      unfold unsubscribeClientFromSymbol
      rw [hcl]
    rw [h1, h1]
  | some syms =>
    have hnd : syms.Nodup := hc _ hcl
    have hnm : symbol ∉ syms.erase symbol := by
      intro hmem
      exact (hnd.mem_erase_iff.mp hmem).1 rfl
    have herase2 : (syms.erase symbol).erase symbol = syms.erase symbol :=
      List.erase_of_not_mem hnm
    cases hss : st.symbolSubscriptions symbol with
    | none =>
      have hst : unsubscribeClientFromSymbol clientId symbol st =
          { st with clients :=
              (upd st.clients clientId (some (syms.erase symbol))) } := by
        simp [unsubscribeClientFromSymbol, hcl, hss]
      rw [hst]
      simp [unsubscribeClientFromSymbol, upd_self, hss, herase2, upd_upd_self]
    | some subs =>
      have hnds : subs.Nodup := hs _ hss
      have hnms : clientId ∉ subs.erase clientId := by
        intro hmem
        exact (hnds.mem_erase_iff.mp hmem).1 rfl
      have herase2s : (subs.erase clientId).erase clientId =
          subs.erase clientId :=
        List.erase_of_not_mem hnms
      by_cases hemp : (subs.erase clientId).isEmpty
      · have hst : unsubscribeClientFromSymbol clientId symbol st =
            { clients := upd st.clients clientId (some (syms.erase symbol)),
              symbolSubscriptions := upd st.symbolSubscriptions symbol none,
              mdsSubscribedSymbols :=
                (eraseIfMem symbol st.mdsSubscribedSymbols) } := by
          simp [unsubscribeClientFromSymbol, hcl, hss, hemp]
        rw [hst]
        simp [unsubscribeClientFromSymbol, upd_self, herase2, upd_upd_self]
      · have hst : unsubscribeClientFromSymbol clientId symbol st =
            { clients := upd st.clients clientId (some (syms.erase symbol)),
              symbolSubscriptions :=
                (upd st.symbolSubscriptions symbol (some (subs.erase clientId))),
              mdsSubscribedSymbols := st.mdsSubscribedSymbols } := by
          simp [unsubscribeClientFromSymbol, hcl, hss, hemp]
        rw [hst]
        simp [unsubscribeClientFromSymbol, upd_self, herase2, herase2s,
          upd_upd_self, hemp]

theorem c8_unsubscribe_idempotent_witness :
    (∀ l, (⟨upd (fun _ => none) "C1" (some ["AAPL"]),
        upd (fun _ => none) "AAPL" (some ["C1"]), ["AAPL"]⟩ : Registry).clients
          "C1" = some l → l.Nodup) ∧
    unsubscribeClientFromSymbol "C1" "AAPL"
        (unsubscribeClientFromSymbol "C1" "AAPL"
          ⟨upd (fun _ => none) "C1" (some ["AAPL"]),
            upd (fun _ => none) "AAPL" (some ["C1"]), ["AAPL"]⟩) =
      unsubscribeClientFromSymbol "C1" "AAPL"
        ⟨upd (fun _ => none) "C1" (some ["AAPL"]),
          upd (fun _ => none) "AAPL" (some ["C1"]), ["AAPL"]⟩ :=
  ⟨by intro l h; simp [upd] at h; subst h; decide,
   c8_unsubscribe_idempotent _ "C1" "AAPL"
     (by intro l h; simp [upd] at h; subst h; decide)
     (by intro l h; simp [upd] at h; subst h; decide)⟩

theorem mem_addElem {a b : String} {l : List String} :
    a ∈ addElem b l ↔ a = b ∨ a ∈ l := by
  by_cases hb : b ∈ l
  · simp only [addElem, hb, if_true]
    constructor
    · intro h
      exact Or.inr h
    · rintro (rfl | h)
      · exact hb
      · exact h
  · simp only [addElem, hb, if_false, List.mem_append, List.mem_singleton]
    exact Or.comm

theorem nodup_addElem {a : String} {l : List String} (h : l.Nodup) :
    (addElem a l).Nodup := by
  by_cases ha : a ∈ l
  · simpa [addElem, ha] using h
  · simp only [addElem, ha, if_false]
    exact List.Nodup.append h (List.nodup_singleton a)
      (by simp [List.disjoint_singleton, ha])

theorem addElem_ne_nil {a : String} {l : List String} : addElem a l ≠ [] := by
  by_cases ha : a ∈ l
  · simpa [addElem, ha] using List.ne_nil_of_mem ha
  · simp [addElem, ha]

theorem mem_of_erase_nil {l : List String} {a b : String}
    (h : l.erase a = []) (hb : b ∈ l) : b = a := by
  cases l with
  | nil => simp at hb
  | cons x xs =>
    by_cases hx : x = a
    · subst hx
      simp only [List.erase_cons, beq_self_eq_true, if_true] at h
      subst h
      simp at hb
      exact hb
    · simp [List.erase_cons, hx] at h

/-- The registry consistency invariant of C9: every client's symbol list and
every symbol's subscriber list is duplicate-free (the JS sets they model
cannot hold duplicates); a symbol is in a connected client's set exactly when
the client is in that symbol's subscriber-map entry; and every entry present
in the subscriber map is non-empty. -/
def WF (st : Registry) : Prop :=
  (∀ c syms, st.clients c = some syms → syms.Nodup) ∧
  (∀ s subs, st.symbolSubscriptions s = some subs → subs.Nodup ∧ subs ≠ []) ∧
  (∀ c syms, st.clients c = some syms →
    ∀ s, s ∈ syms ↔
      ∃ subs, st.symbolSubscriptions s = some subs ∧ c ∈ subs)

theorem WF_subscribe (st : Registry) (c s : String) (h : WF st) :
    WF (subscribeClientToSymbol c s st) := by
  obtain ⟨h1, h2, h3⟩ := h
  cases hcl : st.clients c with
  | none =>
    have hst : subscribeClientToSymbol c s st = st := by
      unfold subscribeClientToSymbol
      rw [hcl]
    rw [hst]
    exact ⟨h1, h2, h3⟩
  | some syms =>
    cases hss : st.symbolSubscriptions s with
    | none =>
      have hst : subscribeClientToSymbol c s st =
          { clients := (upd st.clients c (some (addElem s syms))),
            symbolSubscriptions :=
              (upd st.symbolSubscriptions s (some (addElem c []))),
            mdsSubscribedSymbols := (addElem s st.mdsSubscribedSymbols) } := by
        simp [subscribeClientToSymbol, hcl, hss]
      rw [hst]
      refine ⟨?_, ?_, ?_⟩
      · intro c2 syms2 hc2
        dsimp only at hc2
        by_cases hc2c : c2 = c
        · subst hc2c
          rw [upd_self] at hc2
          cases hc2
          exact nodup_addElem (h1 _ _ hcl)
        · rw [upd_ne _ _ _ _ hc2c] at hc2
          exact h1 _ _ hc2
      · intro s2 subs2 hs2
        dsimp only at hs2
        by_cases hs2s : s2 = s
        · subst hs2s
          rw [upd_self] at hs2
          cases hs2
          exact ⟨nodup_addElem List.nodup_nil, addElem_ne_nil⟩
        · rw [upd_ne _ _ _ _ hs2s] at hs2
          exact h2 _ _ hs2
      · intro c2 syms2 hc2 s2
        dsimp only at hc2 ⊢
        by_cases hc2c : c2 = c
        · subst hc2c
          rw [upd_self] at hc2
          cases hc2
          by_cases hs2s : s2 = s
          · subst hs2s
            refine iff_of_true (mem_addElem.mpr (Or.inl rfl)) ?_
            exact ⟨addElem c2 [], upd_self _ _ _, mem_addElem.mpr (Or.inl rfl)⟩
          · constructor
            · intro hmem
              rcases mem_addElem.mp hmem with rfl | hmem2
              · exact absurd rfl hs2s
              · obtain ⟨subs, hsub, hcm⟩ := (h3 _ _ hcl s2).mp hmem2
                exact ⟨subs, by rw [upd_ne _ _ _ _ hs2s]; exact hsub, hcm⟩
            · rintro ⟨subs, hsub, hcm⟩
              rw [upd_ne _ _ _ _ hs2s] at hsub
              exact mem_addElem.mpr
                (Or.inr ((h3 _ _ hcl s2).mpr ⟨subs, hsub, hcm⟩))
        · rw [upd_ne _ _ _ _ hc2c] at hc2
          by_cases hs2s : s2 = s
          · subst hs2s
            refine iff_of_false ?_ ?_
            · intro hmem
              obtain ⟨subs, hsub, _⟩ := (h3 _ _ hc2 s2).mp hmem
              rw [hss] at hsub
              exact Option.noConfusion hsub
            · rintro ⟨subs, hsub, hcm⟩
              rw [upd_self] at hsub
              cases hsub
              rcases mem_addElem.mp hcm with rfl | hcm2
              · exact hc2c rfl
              · simp at hcm2
          · rw [upd_ne _ _ _ _ hs2s]
            exact h3 _ _ hc2 s2
    | some subs =>
      have hst : subscribeClientToSymbol c s st =
          { clients := (upd st.clients c (some (addElem s syms))),
            symbolSubscriptions :=
              (upd st.symbolSubscriptions s (some (addElem c subs))),
            mdsSubscribedSymbols := st.mdsSubscribedSymbols } := by
        simp [subscribeClientToSymbol, hcl, hss]
      rw [hst]
      refine ⟨?_, ?_, ?_⟩
      · intro c2 syms2 hc2
        dsimp only at hc2
        by_cases hc2c : c2 = c
        · subst hc2c
          rw [upd_self] at hc2
          cases hc2
          exact nodup_addElem (h1 _ _ hcl)
        · rw [upd_ne _ _ _ _ hc2c] at hc2
          exact h1 _ _ hc2
      · intro s2 subs2 hs2
        dsimp only at hs2
        by_cases hs2s : s2 = s
        · subst hs2s
          rw [upd_self] at hs2
          cases hs2
          exact ⟨nodup_addElem (h2 _ _ hss).1, addElem_ne_nil⟩
        · rw [upd_ne _ _ _ _ hs2s] at hs2
          exact h2 _ _ hs2
      · intro c2 syms2 hc2 s2
        dsimp only at hc2 ⊢
        by_cases hc2c : c2 = c
        · subst hc2c
          rw [upd_self] at hc2
          cases hc2
          by_cases hs2s : s2 = s
          · subst hs2s
            refine iff_of_true (mem_addElem.mpr (Or.inl rfl)) ?_
            exact ⟨addElem c2 subs, upd_self _ _ _, mem_addElem.mpr (Or.inl rfl)⟩
          · constructor
            · intro hmem
              rcases mem_addElem.mp hmem with rfl | hmem2
              · exact absurd rfl hs2s
              · obtain ⟨subs0, hsub, hcm⟩ := (h3 _ _ hcl s2).mp hmem2
                exact ⟨subs0, by rw [upd_ne _ _ _ _ hs2s]; exact hsub, hcm⟩
            · rintro ⟨subs0, hsub, hcm⟩
              rw [upd_ne _ _ _ _ hs2s] at hsub
              exact mem_addElem.mpr
                (Or.inr ((h3 _ _ hcl s2).mpr ⟨subs0, hsub, hcm⟩))
        · rw [upd_ne _ _ _ _ hc2c] at hc2
          by_cases hs2s : s2 = s
          · subst hs2s
            have hold := h3 _ _ hc2 s2
            constructor
            · intro hmem
              obtain ⟨subs0, hsub, hcm⟩ := hold.mp hmem
              rw [hss] at hsub
              cases hsub
              exact ⟨addElem c subs, upd_self _ _ _,
                mem_addElem.mpr (Or.inr hcm)⟩
            · rintro ⟨subs0, hsub, hcm⟩
              rw [upd_self] at hsub
              cases hsub
              rcases mem_addElem.mp hcm with rfl | hcm2
              · exact absurd rfl hc2c
              · exact hold.mpr ⟨subs, hss, hcm2⟩
          · rw [upd_ne _ _ _ _ hs2s]
            exact h3 _ _ hc2 s2

theorem WF_unsubscribe (st : Registry) (c s : String) (h : WF st) :
    WF (unsubscribeClientFromSymbol c s st) := by
  obtain ⟨h1, h2, h3⟩ := h
  cases hcl : st.clients c with
  | none =>
    have hst : unsubscribeClientFromSymbol c s st = st := by
      unfold unsubscribeClientFromSymbol
      rw [hcl]
    rw [hst]
    exact ⟨h1, h2, h3⟩
  | some syms =>
    have hnd : syms.Nodup := h1 _ _ hcl
    cases hss : st.symbolSubscriptions s with
    | none =>
      have hst : unsubscribeClientFromSymbol c s st =
          { st with clients := (upd st.clients c (some (syms.erase s))) } := by
        simp [unsubscribeClientFromSymbol, hcl, hss]
      rw [hst]
      refine ⟨?_, ?_, ?_⟩
      · intro c2 syms2 hc2
        dsimp only at hc2
        by_cases hc2c : c2 = c
        · subst hc2c
          rw [upd_self] at hc2
          cases hc2
          exact hnd.erase s
        · rw [upd_ne _ _ _ _ hc2c] at hc2
          exact h1 _ _ hc2
      · intro s2 subs2 hs2
        dsimp only at hs2
        exact h2 _ _ hs2
      · intro c2 syms2 hc2 s2
        dsimp only at hc2 ⊢
        by_cases hc2c : c2 = c
        · subst hc2c
          rw [upd_self] at hc2
          cases hc2
          by_cases hs2s : s2 = s
          · subst hs2s
            refine iff_of_false ?_ ?_
            · intro hmem
              exact (hnd.mem_erase_iff.mp hmem).1 rfl
            · rintro ⟨subs, hsub, _⟩
              rw [hss] at hsub
              exact Option.noConfusion hsub
          · rw [List.mem_erase_of_ne hs2s]
            exact h3 _ _ hcl s2
        · rw [upd_ne _ _ _ _ hc2c] at hc2
          exact h3 _ _ hc2 s2
    | some subs =>
      have hnds : subs.Nodup := (h2 _ _ hss).1
      by_cases hemp : (subs.erase c).isEmpty
      · have hnil : subs.erase c = [] := List.isEmpty_iff.mp hemp
        have hst : unsubscribeClientFromSymbol c s st =
            { clients := (upd st.clients c (some (syms.erase s))),
              symbolSubscriptions := (upd st.symbolSubscriptions s none),
              mdsSubscribedSymbols :=
                (eraseIfMem s st.mdsSubscribedSymbols) } := by
          simp [unsubscribeClientFromSymbol, hcl, hss, hemp]
        rw [hst]
        refine ⟨?_, ?_, ?_⟩
        · intro c2 syms2 hc2
          dsimp only at hc2
          by_cases hc2c : c2 = c
          · subst hc2c
            rw [upd_self] at hc2
            cases hc2
            exact hnd.erase s
          · rw [upd_ne _ _ _ _ hc2c] at hc2
            exact h1 _ _ hc2
        · intro s2 subs2 hs2
          dsimp only at hs2
          by_cases hs2s : s2 = s
          · subst hs2s
            rw [upd_self] at hs2
            exact Option.noConfusion hs2
          · rw [upd_ne _ _ _ _ hs2s] at hs2
            exact h2 _ _ hs2
        · intro c2 syms2 hc2 s2
          dsimp only at hc2 ⊢
          by_cases hc2c : c2 = c
          · subst hc2c
            rw [upd_self] at hc2
            cases hc2
            by_cases hs2s : s2 = s
            · subst hs2s
              refine iff_of_false ?_ ?_
              · intro hmem
                exact (hnd.mem_erase_iff.mp hmem).1 rfl
              · rintro ⟨subs0, hsub, _⟩
                rw [upd_self] at hsub
                exact Option.noConfusion hsub
            · rw [List.mem_erase_of_ne hs2s, upd_ne _ _ _ _ hs2s]
              exact h3 _ _ hcl s2
          · rw [upd_ne _ _ _ _ hc2c] at hc2
            by_cases hs2s : s2 = s
            · subst hs2s
              refine iff_of_false ?_ ?_
              · intro hmem
                obtain ⟨subs0, hsub, hcm⟩ := (h3 _ _ hc2 s2).mp hmem
                rw [hss] at hsub
                cases hsub
                exact hc2c (mem_of_erase_nil hnil hcm)
              · rintro ⟨subs0, hsub, _⟩
                rw [upd_self] at hsub
                exact Option.noConfusion hsub
            · rw [upd_ne _ _ _ _ hs2s]
              exact h3 _ _ hc2 s2
      · have hne : subs.erase c ≠ [] := by
          intro hn
          exact hemp (by rw [hn]; rfl)
        have hst : unsubscribeClientFromSymbol c s st =
            { clients := (upd st.clients c (some (syms.erase s))),
              symbolSubscriptions :=
                (upd st.symbolSubscriptions s (some (subs.erase c))),
              mdsSubscribedSymbols := st.mdsSubscribedSymbols } := by
          simp [unsubscribeClientFromSymbol, hcl, hss, hemp]
        rw [hst]
        refine ⟨?_, ?_, ?_⟩
        · intro c2 syms2 hc2
          dsimp only at hc2
          by_cases hc2c : c2 = c
          · subst hc2c
            rw [upd_self] at hc2
            cases hc2
            exact hnd.erase s
          · rw [upd_ne _ _ _ _ hc2c] at hc2
            exact h1 _ _ hc2
        · intro s2 subs2 hs2
          dsimp only at hs2
          by_cases hs2s : s2 = s
          · subst hs2s
            rw [upd_self] at hs2
            cases hs2
            exact ⟨hnds.erase c, hne⟩
          · rw [upd_ne _ _ _ _ hs2s] at hs2
            exact h2 _ _ hs2
        · intro c2 syms2 hc2 s2
          dsimp only at hc2 ⊢
          by_cases hc2c : c2 = c
          · subst hc2c
            rw [upd_self] at hc2
            cases hc2
            by_cases hs2s : s2 = s
            · subst hs2s
              refine iff_of_false ?_ ?_
              · intro hmem
                exact (hnd.mem_erase_iff.mp hmem).1 rfl
              · rintro ⟨subs0, hsub, hcm⟩
                rw [upd_self] at hsub
                cases hsub
                exact (hnds.mem_erase_iff.mp hcm).1 rfl
            · rw [List.mem_erase_of_ne hs2s, upd_ne _ _ _ _ hs2s]
              exact h3 _ _ hcl s2
          · rw [upd_ne _ _ _ _ hc2c] at hc2
            by_cases hs2s : s2 = s
            · subst hs2s
              have hold := h3 _ _ hc2 s2
              constructor
              · intro hmem
                obtain ⟨subs0, hsub, hcm⟩ := hold.mp hmem
                rw [hss] at hsub
                cases hsub
                exact ⟨subs.erase c, upd_self _ _ _,
                  (List.mem_erase_of_ne hc2c).mpr hcm⟩
              · rintro ⟨subs0, hsub, hcm⟩
                rw [upd_self] at hsub
                cases hsub
                exact hold.mpr ⟨subs, hss, (List.mem_erase_of_ne hc2c).mp hcm⟩
            · rw [upd_ne _ _ _ _ hs2s]
              exact h3 _ _ hc2 s2

theorem WF_unsub_foldl (c : String) (l : List String) (st : Registry)
    (h : WF st) :
    WF (l.foldl (fun acc s => unsubscribeClientFromSymbol c s acc) st) := by
  induction l generalizing st with
  | nil => exact h
  | cons s rest ih => exact ih _ (WF_unsubscribe _ c s h)

theorem WF_disconnect (st : Registry) (c : String) (h : WF st) :
    WF (handleClientDisconnection c st) := by
  cases hcl : st.clients c with
  | none =>
    have hst : handleClientDisconnection c st = st := by
      unfold handleClientDisconnection
      rw [hcl]
    rw [hst]
    exact h
  | some syms =>
    have hst : handleClientDisconnection c st =
        { syms.foldl (fun acc s => unsubscribeClientFromSymbol c s acc) st with
          clients :=
            (upd (syms.foldl
              (fun acc s => unsubscribeClientFromSymbol c s acc) st).clients
              c none) } := by
      simp [handleClientDisconnection, hcl]
    rw [hst]
    obtain ⟨g1, g2, g3⟩ := WF_unsub_foldl c syms st h
    refine ⟨?_, ?_, ?_⟩
    · intro c2 syms2 hc2
      dsimp only at hc2
      by_cases hc2c : c2 = c
      · subst hc2c
        rw [upd_self] at hc2
        exact Option.noConfusion hc2
      · rw [upd_ne _ _ _ _ hc2c] at hc2
        exact g1 _ _ hc2
    · intro s2 subs2 hs2
      dsimp only at hs2
      exact g2 _ _ hs2
    · intro c2 syms2 hc2 s2
      dsimp only at hc2 ⊢
      by_cases hc2c : c2 = c
      · subst hc2c
        rw [upd_self] at hc2
        exact Option.noConfusion hc2
      · rw [upd_ne _ _ _ _ hc2c] at hc2
        exact g3 _ _ hc2 s2

/-- The registry with no connected clients and no subscriptions. -/
def emptyRegistry : Registry := ⟨fun _ => none, fun _ => none, []⟩

theorem WF_emptyRegistry : WF emptyRegistry := by
  refine ⟨?_, ?_, ?_⟩ <;> intro a b hb <;> exact Option.noConfusion hb

/-- C9: every subscribe, unsubscribe and disconnect operation preserves the
registry consistency invariant `WF`: symbol/client membership is
bidirectional for connected clients, every present subscriber-map entry is
non-empty (an entry whose set becomes empty is removed), and the underlying
sets stay duplicate-free. -/
theorem c9_registry_bidirectional (st : Registry) (c s : String) (h : WF st) :
    WF (subscribeClientToSymbol c s st) ∧
    WF (unsubscribeClientFromSymbol c s st) ∧
    WF (handleClientDisconnection c st) :=
  ⟨WF_subscribe st c s h, WF_unsubscribe st c s h, WF_disconnect st c h⟩

theorem c9_registry_bidirectional_witness :
    WF emptyRegistry ∧
    (WF (subscribeClientToSymbol "C1" "AAPL" emptyRegistry) ∧
      WF (unsubscribeClientFromSymbol "C1" "AAPL" emptyRegistry) ∧
      WF (handleClientDisconnection "C1" emptyRegistry)) :=
  ⟨WF_emptyRegistry,
   c9_registry_bidirectional emptyRegistry "C1" "AAPL" WF_emptyRegistry⟩

/-- The symbol universe of `startPeriodicDataFetch` (part_008 lines 100-126):
`symbolCategories` flattened in JS `Object.values` insertion order. -/
def allSymbols : List String :=
  ["AAPL", "GOOGL", "MSFT", "META", "NVDA", "AMD",
   "TSLA", "AMZN", "NFLX", "DIS", "PYPL", "ADBE",
   "CRM", "ORCL", "INTC", "IBM",
   "JPM", "BAC", "GS", "MS", "WFC", "V", "MA",
   "SPY", "QQQ", "IWM",
   "VTI", "VOO", "VEA", "VWO",
   "BTC/USD", "ETH/USD",
   "LTC/USD", "BCH/USD", "LINK/USD", "UNI/USD",
   "AAVE/USD", "ALGO/USD", "DOT/USD", "DOGE/USD",
   "EUR/USD", "GBP/USD", "USD/JPY", "USD/CHF",
   "AUD/USD", "USD/CAD", "NZD/USD",
   "EUR/GBP", "EUR/JPY", "GBP/JPY"]

/-- part_008 line 129. -/
def highPrioritySymbols : List String :=
  ["SPY", "QQQ", "BTC/USD", "ETH/USD", "AAPL", "GOOGL", "MSFT", "TSLA", "NVDA"]

/-- part_008 line 130. -/
def mediumPrioritySymbols : List String :=
  ["META", "AMZN", "NFLX", "AMD", "JPM", "V", "LTC/USD", "BCH/USD"]

/-- part_008 lines 131-133. -/
def lowPrioritySymbols : List String :=
  allSymbols.filter
    (fun s => !(decide (s ∈ highPrioritySymbols)) &&
      !(decide (s ∈ mediumPrioritySymbols)))

/-- Whether the ingestion scheduler polls `symbol`.  The three `setInterval`
loops of `startPeriodicDataFetch` (part_008 lines 146-159) close over the
three static tier arrays; the subscription registry is never consulted, which
is why the `Registry` argument is unused — exactly the fact under test in
C5. -/
def pollTargetIn (_reg : Registry) (symbol : String) : Bool :=
  decide (symbol ∈ highPrioritySymbols) ||
    decide (symbol ∈ mediumPrioritySymbols) ||
    decide (symbol ∈ lowPrioritySymbols)

/-- The auto-subscribed "popular" list of the connection handler
(part_007 line 170) — the only pre-warm-like set in the source. -/
def popularSymbols : List String :=
  ["AAPL", "GOOGL", "MSFT", "TSLA", "BTC/USD", "ETH/USD"]

/-- Does the registry have at least one subscriber for `symbol`
(`broadcastPriceUpdate`'s emptiness check, part_007 lines 243-249)? -/
def hasSubscribers (reg : Registry) (symbol : String) : Bool :=
  match reg.symbolSubscriptions symbol with
  | some subs => !subs.isEmpty
  | none => false

/-- C5 counterexample: IBM is a poll target of the scheduler even though no
connection subscribes to it and it is not in the popular (pre-warmed) set —
the claimed "poll target iff subscribed-or-pre-warmed" equivalence fails. -/
theorem c5_ibm_polled_without_subscribers :
    ¬ (pollTargetIn emptyRegistry "IBM" = true ↔
        (hasSubscribers emptyRegistry "IBM" = true ∨
          "IBM" ∈ popularSymbols)) := by
  decide

/-- C5 amended: the scheduler's poll-target set is the static configured
symbol list, identical for every registry state (subscriptions never
activate or deactivate polling).  What the first subscribe / last
unsubscribe does toggle is the upstream *streaming* subscription: creating a
symbol's first registry entry adds it to `mdsSubscribedSymbols`, removing
its last subscriber removes it, and an unsubscribe that leaves other
subscribers changes nothing. -/
theorem c5_static_poll_targets :
    (∀ reg1 reg2 symbol, pollTargetIn reg1 symbol = pollTargetIn reg2 symbol) ∧
    (∀ reg symbol, pollTargetIn reg symbol = true ↔ symbol ∈ allSymbols) ∧
    (∀ st c sym syms, st.clients c = some syms →
      st.symbolSubscriptions sym = none →
      (subscribeClientToSymbol c sym st).mdsSubscribedSymbols =
        addElem sym st.mdsSubscribedSymbols) ∧
    (∀ st c sym syms subs, st.clients c = some syms →
      st.symbolSubscriptions sym = some subs →
      (subs.erase c).isEmpty = true →
      (unsubscribeClientFromSymbol c sym st).mdsSubscribedSymbols =
        eraseIfMem sym st.mdsSubscribedSymbols) ∧
    (∀ st c sym syms subs, st.clients c = some syms →
      st.symbolSubscriptions sym = some subs →
      (subs.erase c).isEmpty = false →
      (unsubscribeClientFromSymbol c sym st).mdsSubscribedSymbols =
        st.mdsSubscribedSymbols) := by
  refine ⟨fun reg1 reg2 symbol => rfl, ?_, ?_, ?_, ?_⟩
  · intro reg symbol
    simp only [pollTargetIn, Bool.or_eq_true, decide_eq_true_eq]
    constructor
    · intro h
      rcases h with (h | h) | h
      · revert h
        have hsub : ∀ x ∈ highPrioritySymbols, x ∈ allSymbols := by decide
        exact hsub symbol
      · revert h
        have hsub : ∀ x ∈ mediumPrioritySymbols, x ∈ allSymbols := by decide
        exact hsub symbol
      · exact (List.mem_filter.mp h).1
    · intro hmem
      by_cases hh : symbol ∈ highPrioritySymbols
      · exact Or.inl (Or.inl hh)
      · by_cases hm : symbol ∈ mediumPrioritySymbols
        · exact Or.inl (Or.inr hm)
        · refine Or.inr (List.mem_filter.mpr ⟨hmem, ?_⟩)
          simp [hh, hm]
  · intro st c sym syms hcl hss
    simp [subscribeClientToSymbol, hcl, hss]
  · intro st c sym syms subs hcl hss hemp
    simp [unsubscribeClientFromSymbol, hcl, hss, hemp]
  · intro st c sym syms subs hcl hss hemp
    simp [unsubscribeClientFromSymbol, hcl, hss, hemp]

theorem c5_static_poll_targets_witness :
    (⟨upd (fun _ => none) "C1" (some []), fun _ => none, []⟩ : Registry).clients
        "C1" = some [] ∧
    (⟨upd (fun _ => none) "C1" (some []), fun _ => none,
        []⟩ : Registry).symbolSubscriptions "IBM" = none ∧
    (subscribeClientToSymbol "C1" "IBM"
        ⟨upd (fun _ => none) "C1" (some []), fun _ => none,
          []⟩).mdsSubscribedSymbols =
      addElem "IBM"
        (⟨upd (fun _ => none) "C1" (some []), fun _ => none,
          []⟩ : Registry).mdsSubscribedSymbols :=
  ⟨by decide, rfl,
   c5_static_poll_targets.2.2.1 _ "C1" "IBM" [] (by decide) rfl⟩
